import Mathlib

/-!
Verification development for the evaluation/metrics utilities of a multimodal
embedding project (`src/utils.py`).  Python floats and torch tensors are
modelled as exact rationals (`ℚ`), tensors as lists, fallible code as
`Except String`, and `None`-able values as `Option`.  External sklearn
estimators are modelled as row-wise prediction functions supplied as
parameters.
-/

attribute [local semireducible] Rat.add Rat.mul Rat.inv Rat.sub Rat.ofScientific

set_option maxRecDepth 40000

/-- Mean of a list of rationals, modelling `torch.mean` / `sum(..)/len(..)`
(division by zero yields 0 in `ℚ`, where Python would give `nan` or raise). -/
def listMean (l : List ℚ) : ℚ := l.sum / (l.length : ℚ)

/-- Model of `torch.sqrt` on a nonnegative rational: a computable rational
square root (exact on perfect squares, a floor approximation otherwise;
`sqrt (n / d) = sqrt (n * d) / d`).  The properties proved about it
(nonnegativity, value at 0) agree with the real square root. -/
def ratSqrt (q : ℚ) : ℚ := ((Nat.sqrt (q.num.toNat * q.den) : ℚ)) / ((q.den : ℚ))

/-- `calculate_metrics`, regression branch: `l1 = torch.mean(torch.abs(y_true - y_pred))`. -/
def reg_l1 (y_true y_pred : List ℚ) : ℚ :=
  listMean (List.zipWith (fun a b => |a - b|) y_true y_pred)

/-- `calculate_metrics`, regression branch: `l2 = torch.sqrt(torch.mean((y_true - y_pred) ** 2))`. -/
def reg_l2 (y_true y_pred : List ℚ) : ℚ :=
  ratSqrt (listMean (List.zipWith (fun a b => (a - b) * (a - b)) y_true y_pred))

/-- `calculate_metrics`, regression branch:
`R2 = 1 - sum((y_true - y_pred)**2) / sum((y_true - mean(y_true))**2)`. -/
def reg_R2 (y_true y_pred : List ℚ) : ℚ :=
  1 - (List.zipWith (fun a b => (a - b) * (a - b)) y_true y_pred).sum /
      ((y_true.map (fun a => (a - listMean y_true) * (a - listMean y_true))).sum)

/-- `calculate_metrics`, regression branch: outlier fraction
`OLF = torch.mean((torch.abs(y_true - y_pred) / (1 + y_true) > 0.15).float())`. -/
def reg_olf (y_true y_pred : List ℚ) : ℚ :=
  listMean (List.zipWith (fun a b => if (0.15 : ℚ) < |a - b| / (1 + a) then (1 : ℚ) else 0)
    y_true y_pred)

/-- Insert into a `≤`-sorted list of rationals. -/
def insertLeQ (a : ℚ) : List ℚ → List ℚ
  | [] => [a]
  | b :: bs => if a ≤ b then a :: b :: bs else b :: insertLeQ a bs

/-- Insertion sort on rationals (used to model `np.unique`'s sorted output). -/
def sortQ (l : List ℚ) : List ℚ := l.foldr insertLeQ []

/-- Sorted distinct values, modelling `np.unique` (sklearn's label set). -/
def uniqueQ (l : List ℚ) : List ℚ := sortQ l.eraseDups

/-- Modelled from sklearn: true-positive count for class `L` over paired labels. -/
def clsTP (pairs : List (ℚ × ℚ)) (L : ℚ) : ℚ :=
  (pairs.countP (fun p => p.1 == L && p.2 == L) : ℚ)

/-- Modelled from sklearn: `precision_score` for one class (`0/0 = 0`, matching
sklearn's zero-division behaviour). -/
def clsPrec (pairs : List (ℚ × ℚ)) (L : ℚ) : ℚ :=
  clsTP pairs L / ((pairs.countP (fun p => p.2 == L) : ℚ))

/-- Modelled from sklearn: `recall_score` for one class. -/
def clsRec (pairs : List (ℚ × ℚ)) (L : ℚ) : ℚ :=
  clsTP pairs L / ((pairs.countP (fun p => p.1 == L) : ℚ))

/-- Modelled from sklearn: per-class F1 (harmonic mean of precision and recall). -/
def clsF1 (pairs : List (ℚ × ℚ)) (L : ℚ) : ℚ :=
  if clsPrec pairs L + clsRec pairs L = 0 then 0
  else 2 * clsPrec pairs L * clsRec pairs L / (clsPrec pairs L + clsRec pairs L)

/-- Modelled from sklearn: micro-averaged f1/precision/recall/accuracy, which
for single-label multiclass data all equal plain accuracy. -/
def clsMicro (pairs : List (ℚ × ℚ)) : ℚ :=
  (pairs.countP (fun p => p.1 == p.2) : ℚ) / (pairs.length : ℚ)

/-- Metric values of a Metrics Record: either the regression set or the
classification set, mirroring the two branches of `calculate_metrics`. -/
inductive MetricVals where
  | reg (L1 L2 R2 OLF : ℚ)
  | cls (micF1 micP micR micAcc macF1 macP macR macAcc : ℚ)
  deriving DecidableEq

/-- A Metrics Record: identifying keys plus the metric values. -/
structure MetricRecord where
  Model : String
  Combination : String
  id : ℤ
  vals : MetricVals
  deriving DecidableEq

/-- The `lc_data` auxiliary payload: dict with keys `x_lc`, `t_lc`, `mask_lc`
(the fixed keys produced by `process_data_loader`). -/
structure LCData where
  x_lc : List ℚ
  t_lc : List ℚ
  mask_lc : List ℚ
  deriving DecidableEq

/-- The companion `results` record returned by `calculate_metrics` (also the
row shape grouped by `mergekfold_results`). -/
structure PredRecord where
  Model : String
  Combination : String
  id : ℤ
  y_pred : List ℚ
  y_true : List ℚ
  y_true_label : List ℤ
  lc_data : Option LCData
  deriving DecidableEq

/-- Regression-branch Metrics Record of `calculate_metrics`. -/
def regressionMetricRecord (y_true : List ℚ) (y_pred : List ℚ)
    (label combination : String) (id : ℤ) : MetricRecord :=
  { Model := label, Combination := combination, id := id,
    vals := .reg (reg_l1 y_true y_pred) (reg_l2 y_true y_pred)
      (reg_R2 y_true y_pred) (reg_olf y_true y_pred) }

/-- Classification-branch Metrics Record of `calculate_metrics`; the sklearn
scores are modelled exactly over ℚ (micro scores all equal accuracy; macro
scores average per-class scores over `np.unique` of true and predicted labels;
balanced accuracy averages recall over the classes present in the truth). -/
def classificationMetricRecord (y_true_label : List ℤ) (y_pred : List ℚ)
    (label combination : String) (id : ℤ) : MetricRecord :=
  let yt : List ℚ := y_true_label.map (fun v => (v : ℚ))
  let pairs := yt.zip y_pred
  let labels := uniqueQ (yt ++ y_pred)
  { Model := label, Combination := combination, id := id,
    vals := .cls (clsMicro pairs) (clsMicro pairs) (clsMicro pairs) (clsMicro pairs)
      (listMean (labels.map (clsF1 pairs)))
      (listMean (labels.map (clsPrec pairs)))
      (listMean (labels.map (clsRec pairs)))
      (listMean ((uniqueQ yt).map (clsRec pairs))) }

/-- `calculate_metrics` from `src/utils.py`: dispatches on the exact `task`
string, returning the metrics dictionary and the companion results
dictionary; an unrecognised task raises `ValueError` (modelled as
`Except.error`). -/
def calculate_metrics (y_true : List ℚ) (y_true_label : List ℤ) (y_pred : List ℚ)
    (lc_data : Option LCData) (label combination : String) (id : ℤ)
    (task : String) : Except String (MetricRecord × PredRecord) :=
  let results : PredRecord :=
    { Model := label, Combination := combination, id := id,
      y_pred := y_pred, y_true := y_true, y_true_label := y_true_label,
      lc_data := lc_data }
  if task = "regression" then
    .ok (regressionMetricRecord y_true y_pred label combination id, results)
  else if task = "classification" then
    .ok (classificationMetricRecord y_true_label y_pred label combination id, results)
  else
    .error "Could not understand the task"

/-- Decidable equality for `Except`, so concrete runs can be checked by `decide`. -/
instance {ε α : Type} [DecidableEq ε] [DecidableEq α] : DecidableEq (Except ε α) := fun x y =>
  match x, y with
  | .error a, .error b =>
      if h : a = b then isTrue (by rw [h]) else isFalse (by simpa using h)
  | .ok a, .ok b =>
      if h : a = b then isTrue (by rw [h]) else isFalse (by simpa using h)
  | .error _, .ok _ => isFalse (fun h => Except.noConfusion h)
  | .ok _, .error _ => isFalse (fun h => Except.noConfusion h)

/-- Every element of a `zipWith` is the image of some pair of elements. -/
theorem shape_of_mem_zipWith {α β γ : Type} {f : α → β → γ} :
    ∀ {l1 : List α} {l2 : List β} {x : γ}, x ∈ List.zipWith f l1 l2 → ∃ a b, x = f a b
  | a :: l1, b :: l2, x, h => by
    rcases List.mem_cons.1 h with h | h
    · exact ⟨a, b, h⟩
    · exact shape_of_mem_zipWith h

/-- Claim C6: `calculate_metrics` with `task="regression"` on identical true
and predicted values `[1,2,3,4]` yields L1 = 0, L2 = 0, R2 = 1, OLF = 0. -/
theorem claim_C6 :
    calculate_metrics [1, 2, 3, 4] [0, 0, 0, 0] [1, 2, 3, 4] none "m" "c" 0 "regression" =
      Except.ok
        ({ Model := "m", Combination := "c", id := 0, vals := .reg 0 0 1 0 },
         { Model := "m", Combination := "c", id := 0,
           y_pred := [1, 2, 3, 4], y_true := [1, 2, 3, 4],
           y_true_label := [0, 0, 0, 0], lc_data := none }) := by
  decide

/-- Claim C8: for same-length, non-empty regression vectors, the regression
metrics satisfy `L1 ≥ 0`, `L2 ≥ 0`, and `0 ≤ OLF ≤ 1`. -/
theorem claim_C8 (y_true y_pred : List ℚ)
    (_hlen : y_true.length = y_pred.length) (_hne : y_true ≠ []) :
    0 ≤ reg_l1 y_true y_pred ∧ 0 ≤ reg_l2 y_true y_pred ∧
      0 ≤ reg_olf y_true y_pred ∧ reg_olf y_true y_pred ≤ 1 := by
  refine ⟨?_, ?_, ?_, ?_⟩
  · unfold reg_l1 listMean
    apply div_nonneg _ (by positivity)
    apply List.sum_nonneg
    intro x hx
    obtain ⟨a, b, rfl⟩ := shape_of_mem_zipWith hx
    positivity
  · unfold reg_l2 ratSqrt
    positivity
  · unfold reg_olf listMean
    apply div_nonneg _ (by positivity)
    apply List.sum_nonneg
    intro x hx
    obtain ⟨a, b, rfl⟩ := shape_of_mem_zipWith hx
    split <;> norm_num
  · unfold reg_olf listMean
    set l := List.zipWith
      (fun a b => if (0.15 : ℚ) < |a - b| / (1 + a) then (1 : ℚ) else 0) y_true y_pred
    rcases Nat.eq_zero_or_pos l.length with h0 | hpos
    · simp [h0]
    · rw [div_le_one (by exact_mod_cast hpos)]
      calc l.sum ≤ l.length • (1 : ℚ) := by
            apply List.sum_le_card_nsmul
            intro x hx
            obtain ⟨a, b, rfl⟩ := shape_of_mem_zipWith hx
            split <;> norm_num
        _ = (l.length : ℚ) := by simp

/-- Witness for C8 at a concrete input. -/
theorem claim_C8_witness :
    0 ≤ reg_l1 [1, 2] [3, 4] ∧ 0 ≤ reg_l2 [1, 2] [3, 4] ∧
      0 ≤ reg_olf [1, 2] [3, 4] ∧ reg_olf [1, 2] [3, 4] ≤ 1 :=
  claim_C8 [1, 2] [3, 4] (by decide) (by decide)

/-- Model of Python's `str.lower()` (ASCII lowercasing of each character). -/
def strToLower (s : String) : String := ⟨s.data.map Char.toLower⟩

/-- True exactly when an `Except` run raised (models an uncaught Python exception). -/
def isErr {α : Type} (e : Except String α) : Bool :=
  match e with
  | .error _ => true
  | .ok _ => false

/-- A fitted sklearn estimator, modelled as its external contract: a row-wise
prediction function (one output per input row). -/
def SkModel : Type := List ℚ → ℚ

/-- `get_linear_predictions` from `src/utils.py`.  The sklearn fitting calls
`LinearRegression().fit` and `LinearSVC().fit` are external collaborators,
passed in as parameters producing a fitted row-wise model.  The task check is
case-insensitive (`task.lower()`); an unrecognised task raises
`ValueError("Invalid task")`.  Predictions are made on `X_val` only when both
`X_val` and `Y_val` are supplied, otherwise on the training inputs `X`. -/
def get_linear_predictions (fitLinearRegression fitLinearSVC : List (List ℚ) → List ℚ → SkModel)
    (X : List (List ℚ)) (Y : List ℚ)
    (X_val : Option (List (List ℚ))) (Y_val : Option (List ℚ))
    (task : String) : Except String (List ℚ) :=
  if strToLower task = "regression" then
    let model := fitLinearRegression X Y
    match X_val, Y_val with
    | some xv, some _ => .ok (xv.map model)
    | _, _ => .ok (X.map model)
  else if strToLower task = "classification" then
    let model := fitLinearSVC X Y
    match X_val, Y_val with
    | some xv, some _ => .ok (xv.map model)
    | _, _ => .ok (X.map model)
  else
    .error "Invalid task"

/-- `get_knn_predictions` from `src/utils.py`; same structure as
`get_linear_predictions`, with the k-NN estimators (neighbour count `k`)
modelled as external fitting parameters. -/
def get_knn_predictions (fitKNeighborsRegressor fitKNeighborsClassifier :
      ℕ → List (List ℚ) → List ℚ → SkModel)
    (X : List (List ℚ)) (Y : List ℚ)
    (X_val : Option (List (List ℚ))) (Y_val : Option (List ℚ))
    (k : ℕ) (task : String) : Except String (List ℚ) :=
  if strToLower task = "regression" then
    let model := fitKNeighborsRegressor k X Y
    match X_val, Y_val with
    | some xv, some _ => .ok (xv.map model)
    | _, _ => .ok (X.map model)
  else if strToLower task = "classification" then
    let model := fitKNeighborsClassifier k X Y
    match X_val, Y_val with
    | some xv, some _ => .ok (xv.map model)
    | _, _ => .ok (X.map model)
  else
    .error "Invalid task"

/-- Claim C1 counterexample: the task string `"Regression"` lies outside
{regression, classification}, yet `get_linear_predictions` does not fail —
its task check lowercases the string first, so it fits and returns
predictions. -/
theorem claim_C1_counterexample :
    ("Regression" ≠ "regression" ∧ "Regression" ≠ "classification") ∧
      get_linear_predictions (fun _ _ => fun _ => 0) (fun _ _ => fun _ => 0)
        [[1]] [1] none none "Regression" = Except.ok [0] := by
  constructor
  · constructor <;> decide
  · rfl

/-- Claim C1 (amended): `calculate_metrics` fails with the invalid-task error
for every task string other than exactly `"regression"` or
`"classification"`, while `get_linear_predictions` and `get_knn_predictions`
fail exactly when the lowercased task string is outside that set (their
check is case-insensitive); in each case the error is raised synchronously
and no metrics or predictions are produced. -/
theorem claim_C1 (fitLR fitSVC : List (List ℚ) → List ℚ → SkModel)
    (fitKNR fitKNC : ℕ → List (List ℚ) → List ℚ → SkModel)
    (y_true : List ℚ) (y_true_label : List ℤ) (y_pred : List ℚ)
    (lc_data : Option LCData) (label combination : String) (id : ℤ)
    (X : List (List ℚ)) (Y : List ℚ)
    (X_val : Option (List (List ℚ))) (Y_val : Option (List ℚ)) (k : ℕ)
    (task : String) :
    (task ≠ "regression" → task ≠ "classification" →
      calculate_metrics y_true y_true_label y_pred lc_data label combination id task =
        Except.error "Could not understand the task") ∧
    (strToLower task ≠ "regression" → strToLower task ≠ "classification" →
      get_linear_predictions fitLR fitSVC X Y X_val Y_val task =
          Except.error "Invalid task" ∧
        get_knn_predictions fitKNR fitKNC X Y X_val Y_val k task =
          Except.error "Invalid task") := by
  refine ⟨fun h1 h2 => ?_, fun h1 h2 => ⟨?_, ?_⟩⟩
  · simp [calculate_metrics, h1, h2]
  · simp [get_linear_predictions, h1, h2]
  · simp [get_knn_predictions, h1, h2]

/-- Witness for C1 at the concrete invalid task string `"foo"`. -/
theorem claim_C1_witness :
    calculate_metrics [] [] [] none "m" "c" 0 "foo" =
        Except.error "Could not understand the task" ∧
      get_linear_predictions (fun _ _ => fun _ => 0) (fun _ _ => fun _ => 0)
          [] [] none none "foo" = Except.error "Invalid task" ∧
      get_knn_predictions (fun _ _ _ => fun _ => 0) (fun _ _ _ => fun _ => 0)
          [] [] none none 5 "foo" = Except.error "Invalid task" :=
  ⟨(claim_C1 (fun _ _ => fun _ => 0) (fun _ _ => fun _ => 0)
      (fun _ _ _ => fun _ => 0) (fun _ _ _ => fun _ => 0)
      [] [] [] none "m" "c" 0 [] [] none none 5 "foo").1 (by decide) (by decide),
   (claim_C1 (fun _ _ => fun _ => 0) (fun _ _ => fun _ => 0)
      (fun _ _ _ => fun _ => 0) (fun _ _ _ => fun _ => 0)
      [] [] [] none "m" "c" 0 [] [] none none 5 "foo").2 (by decide) (by decide)⟩

/-- Claim C10: both baseline predictors predict on the validation features
only when both `X_val` and `Y_val` are supplied; if only one of the two is
supplied the run is identical to the in-sample run, predicting on the
training inputs `X`, and (for a valid task) the returned vector has one
entry per training example. -/
theorem claim_C10 (fitLR fitSVC : List (List ℚ) → List ℚ → SkModel)
    (fitKNR fitKNC : ℕ → List (List ℚ) → List ℚ → SkModel)
    (X : List (List ℚ)) (Y : List ℚ)
    (xv : List (List ℚ)) (yv : List ℚ) (k : ℕ) (task : String) :
    (get_linear_predictions fitLR fitSVC X Y (some xv) none task =
        get_linear_predictions fitLR fitSVC X Y none none task) ∧
    (get_linear_predictions fitLR fitSVC X Y none (some yv) task =
        get_linear_predictions fitLR fitSVC X Y none none task) ∧
    (get_knn_predictions fitKNR fitKNC X Y (some xv) none k task =
        get_knn_predictions fitKNR fitKNC X Y none none k task) ∧
    (get_knn_predictions fitKNR fitKNC X Y none (some yv) k task =
        get_knn_predictions fitKNR fitKNC X Y none none k task) ∧
    (strToLower task = "regression" ∨ strToLower task = "classification" →
      (get_linear_predictions fitLR fitSVC X Y (some xv) none task).map List.length =
          Except.ok X.length ∧
        (get_knn_predictions fitKNR fitKNC X Y (some xv) none k task).map List.length =
          Except.ok X.length) := by
  refine ⟨?_, ?_, ?_, ?_, fun h => ⟨?_, ?_⟩⟩
  · unfold get_linear_predictions
    split <;> rfl
  · unfold get_linear_predictions
    split <;> rfl
  · unfold get_knn_predictions
    split <;> rfl
  · unfold get_knn_predictions
    split <;> rfl
  · unfold get_linear_predictions
    rcases h with h | h <;> simp [h, Except.map]
  · unfold get_knn_predictions
    rcases h with h | h <;> simp [h, Except.map]

/-- Witness for C10 at concrete inputs: one training row, two validation
rows, validation targets withheld. -/
theorem claim_C10_witness :
    get_linear_predictions (fun _ _ => fun _ => 0) (fun _ _ => fun _ => 0)
        [[1]] [1] (some [[2], [3]]) none "regression" =
      get_linear_predictions (fun _ _ => fun _ => 0) (fun _ _ => fun _ => 0)
        [[1]] [1] none none "regression" ∧
    (get_linear_predictions (fun _ _ => fun _ => 0) (fun _ _ => fun _ => 0)
        [[1]] [1] (some [[2], [3]]) none "regression").map List.length =
      Except.ok 1 :=
  ⟨(claim_C10 (fun _ _ => fun _ => 0) (fun _ _ => fun _ => 0)
      (fun _ _ _ => fun _ => 0) (fun _ _ _ => fun _ => 0)
      [[1]] [1] [[2], [3]] [] 5 "regression").1,
   ((claim_C10 (fun _ _ => fun _ => 0) (fun _ _ => fun _ => 0)
      (fun _ _ _ => fun _ => 0) (fun _ _ _ => fun _ => 0)
      [[1]] [1] [[2], [3]] [] 5 "regression").2.2.2.2 (Or.inl (by decide))).1⟩

/-- State of `LossTrackingCallback`: the per-instance history buffers.  The
R2 histories hold `Option ℚ` because the code appends the raw result of
`callback_metrics.get(...)`, which is `None` when the metric is absent. -/
structure LTState where
  train_loss_history : List ℚ
  val_loss_history : List ℚ
  epoch_train_loss : List ℚ
  auc_val_history : List ℚ
  R2_val_history : List (Option ℚ)
  R2_train_history : List (Option ℚ)
  deriving DecidableEq

/-- The freshly constructed callback: all histories empty. -/
def LTState.init : LTState :=
  { train_loss_history := [], val_loss_history := [], epoch_train_loss := [],
    auc_val_history := [], R2_val_history := [], R2_train_history := [] }

/-- The external metric feed `trainer.callback_metrics`: a named lookup
returning a scalar (0-dim tensor, modelled as ℚ) or `None`. -/
def MetricFeed : Type := String → Option ℚ

/-- Python truthiness of `callback_metrics.get(...)`: `None` and a 0-dim
tensor holding 0 are falsy; any other value is truthy. -/
def optTruthy (o : Option ℚ) : Bool :=
  match o with
  | none => false
  | some v => v != 0

/-- `LossTrackingCallback.on_train_batch_end`: accumulate the batch loss. -/
def LTState.on_train_batch_end (s : LTState) (loss : ℚ) : LTState :=
  { s with epoch_train_loss := s.epoch_train_loss ++ [loss] }

/-- `LossTrackingCallback.on_train_epoch_end`: append the mean batch loss to
the train-loss history, append the raw `R2_train` lookup (possibly `None`)
to the R2-train history, and reset the accumulator.  `sum(..)/len(..)` on an
empty accumulator raises `ZeroDivisionError`, modelled as `none`. -/
def LTState.on_train_epoch_end (s : LTState) (feed : MetricFeed) : Option LTState :=
  if s.epoch_train_loss.length = 0 then none
  else some
    { s with
      train_loss_history :=
        s.train_loss_history ++ [s.epoch_train_loss.sum / (s.epoch_train_loss.length : ℚ)],
      R2_train_history := s.R2_train_history ++ [feed "R2_train"],
      epoch_train_loss := [] }

/-- `LossTrackingCallback.on_validation_epoch_end`: append the reported
validation loss only when it is present. -/
def LTState.on_validation_epoch_end (s : LTState) (feed : MetricFeed) : LTState :=
  match feed "val_loss" with
  | some v => { s with val_loss_history := s.val_loss_history ++ [v] }
  | none => s

/-- `LossTrackingCallback.on_validation_end`: always append the raw `R2_val`
lookup (possibly `None`); then, if `AUC_val` or `AUC_val1` is truthy, append
`AUC_val` when present, else the mean of `AUC_val1..3` (calling `.detach()`
on a missing sub-score raises `AttributeError`, modelled as `none`). -/
def LTState.on_validation_end (s : LTState) (feed : MetricFeed) : Option LTState :=
  let auc_val := feed "AUC_val"
  let auc_val1 := feed "AUC_val1"
  let s1 := { s with R2_val_history := s.R2_val_history ++ [feed "R2_val"] }
  if optTruthy auc_val || optTruthy auc_val1 then
    match auc_val with
    | none =>
      match feed "AUC_val1", feed "AUC_val2", feed "AUC_val3" with
      | some a, some b, some c =>
          some { s1 with auc_val_history := s1.auc_val_history ++ [(a + b + c) / 3] }
      | _, _, _ => none
    | some v => some { s1 with auc_val_history := s1.auc_val_history ++ [v] }
  else some s1

/-- Claim C2 counterexample: after one accumulated batch loss, running
`on_train_epoch_end` against a metric feed that lacks `R2_train` does append
to the R2-train history — a `None` placeholder is recorded, not skipped. -/
theorem claim_C2_counterexample :
    (LTState.init.on_train_batch_end 1).R2_train_history = [] ∧
      ((LTState.init.on_train_batch_end 1).on_train_epoch_end (fun _ => none)).map
          LTState.R2_train_history =
        some [none] := by
  constructor
  · rfl
  · rfl

/-- Claim C2 (amended): when `val_loss` is absent the val-loss history is
unchanged, and when `AUC_val` and its sub-scores are absent the AUC history
is unchanged (recording skipped, nothing defaulted); but the R2-train and
R2-val histories are appended to unconditionally, storing a `None`
placeholder when the metric is absent from the feed. -/
theorem claim_C2 (s : LTState) (feed : MetricFeed) :
    (feed "val_loss" = none → s.on_validation_epoch_end feed = s) ∧
    (feed "R2_train" = none → s.epoch_train_loss ≠ [] →
      (s.on_train_epoch_end feed).map LTState.R2_train_history =
        some (s.R2_train_history ++ [none])) ∧
    (feed "R2_val" = none → feed "AUC_val" = none → feed "AUC_val1" = none →
      s.on_validation_end feed =
        some { s with R2_val_history := s.R2_val_history ++ [none] }) := by
  refine ⟨fun h => ?_, fun h hne => ?_, fun h1 h2 h3 => ?_⟩
  · unfold LTState.on_validation_epoch_end
    rw [h]
  · unfold LTState.on_train_epoch_end
    rw [if_neg (by simpa using hne), h]
    rfl
  · unfold LTState.on_validation_end
    rw [h1, h2, h3]
    rfl

/-- Witness for C2 at the empty feed and a one-batch state. -/
theorem claim_C2_witness :
    (LTState.init.on_train_batch_end 1).on_validation_epoch_end (fun _ => none) =
        LTState.init.on_train_batch_end 1 ∧
      ((LTState.init.on_train_batch_end 1).on_train_epoch_end (fun _ => none)).map
          LTState.R2_train_history =
        some ((LTState.init.on_train_batch_end 1).R2_train_history ++ [none]) ∧
      (LTState.init.on_train_batch_end 1).on_validation_end (fun _ => none) =
        some { LTState.init.on_train_batch_end 1 with
                R2_val_history :=
                  (LTState.init.on_train_batch_end 1).R2_val_history ++ [none] } :=
  ⟨(claim_C2 (LTState.init.on_train_batch_end 1) (fun _ => none)).1 rfl,
   (claim_C2 (LTState.init.on_train_batch_end 1) (fun _ => none)).2.1 rfl (by decide),
   (claim_C2 (LTState.init.on_train_batch_end 1) (fun _ => none)).2.2 rfl rfl rfl⟩

/-- Dot product of two vectors (lists of rationals). -/
def dotQ (a b : List ℚ) : ℚ := (List.zipWith (fun x y => x * y) a b).sum

/-- Squared Euclidean norm of a vector. -/
def normSq (a : List ℚ) : ℚ := dotQ a a

/-- Exact order on cosine-similarity values.  `cosine_similarity(a, b)` is
`dot a b / (‖a‖ ‖b‖)`; for ranking the rows `a` of `embs1` against a fixed
query `b`, the common positive factor `1 / ‖b‖` cancels, so each similarity
is represented exactly by the pair `(dot a b, ‖a‖²)` and compared by sign
analysis plus cross-multiplication, eliminating the square roots:
`d₁/√s₁ < d₂/√s₂ ↔` (for `s₁ s₂ > 0`) the Boolean below. -/
def cosPairLt (x y : ℚ × ℚ) : Bool :=
  if x.1 < 0 then
    if y.1 < 0 then decide (y.1 * y.1 * x.2 < x.1 * x.1 * y.2)
    else true
  else
    if y.1 < 0 then false
    else decide (x.1 * x.1 * y.2 < y.1 * y.1 * x.2)

/-- Representation of `cosine_similarity(embs1, emb_src)`: one
`(dot, norm²)` pair per row of `embs1` (see `cosPairLt`). -/
def cosSimPairs (embs1 : List (List ℚ)) (e : List ℚ) : List (ℚ × ℚ) :=
  embs1.map (fun a => (dotQ a e, normSq a))

/-- Insert index `i` into a descending-sorted index list (stable: ties keep
the existing order, matching a stable descending sort). -/
def insertDescIdx (v : List (ℚ × ℚ)) (i : ℕ) : List ℕ → List ℕ
  | [] => [i]
  | j :: js =>
    if cosPairLt (v.getD j (0, 0)) (v.getD i (0, 0)) then i :: j :: js
    else j :: insertDescIdx v i js

/-- `torch.argsort(cos_sim, descending=True)`: indices of `v` sorted by
descending similarity value. -/
def argsortDesc (v : List (ℚ × ℚ)) : List ℕ :=
  (List.range v.length).foldl (fun acc i => insertDescIdx v i acc) []

/-- Membership in an insertion step. -/
theorem mem_insertDescIdx (v : List (ℚ × ℚ)) (i : ℕ) :
    ∀ (l : List ℕ) (a : ℕ), a ∈ insertDescIdx v i l ↔ a = i ∨ a ∈ l
  | [], a => by simp [insertDescIdx]
  | j :: js, a => by
    unfold insertDescIdx
    split
    · simp [List.mem_cons]
    · rw [List.mem_cons, mem_insertDescIdx v i js a, List.mem_cons]
      tauto

/-- Membership after folding insertions over a list of indices. -/
theorem mem_insert_foldl (v : List (ℚ × ℚ)) :
    ∀ (is : List ℕ) (acc : List ℕ) (a : ℕ),
      a ∈ is.foldl (fun acc i => insertDescIdx v i acc) acc ↔ a ∈ is ∨ a ∈ acc
  | [], acc, a => by simp
  | i :: is, acc, a => by
    rw [List.foldl_cons, mem_insert_foldl v is _ a, mem_insertDescIdx v i acc a,
      List.mem_cons]
    tauto

/-- `argsortDesc` returns exactly the indices of `v`. -/
theorem mem_argsortDesc (v : List (ℚ × ℚ)) (a : ℕ) :
    a ∈ argsortDesc v ↔ a < v.length := by
  rw [argsortDesc, mem_insert_foldl]
  simp

/-- The 100 evenly spaced thresholds `np.linspace(0, 1, 100)` of
`get_ROC_data` (the k-th is `k / 99`, endpoints included). -/
def rocThresholds : List ℚ := (List.range 100).map (fun (k : ℕ) => (k : ℚ) / 99)

/-- One query of `get_ROC_data`: is the matching index `idx` within the top
`int(threshold * len(idx_sorted))` ranked candidates? -/
def rocHit (embs1 : List (List ℚ)) (idx : ℕ) (e : List ℚ) (t : ℚ) : Bool :=
  let idx_sorted := argsortDesc (cosSimPairs embs1 e)
  decide (idx ∈ idx_sorted.take ((⌊t * (idx_sorted.length : ℚ)⌋).toNat))

/-- The `imgs` accumulator of `get_ROC_data`: one Boolean row per query of
`embs2` (paired with its own index by `enumerate`), one entry per threshold. -/
def rocImgs (embs1 embs2 : List (List ℚ)) : List (List Bool) :=
  embs2.enum.map (fun p => rocThresholds.map (fun t => rocHit embs1 p.1 p.2 t))

/-- The fraction of correct queries at threshold index `k`:
`np.sum(imgs, axis=0)[k] / len(embs2)`. -/
def rocFraction (embs1 embs2 : List (List ℚ)) (k : ℕ) : ℚ :=
  ((rocImgs embs1 embs2).map (fun row => if row.getD k false then (1 : ℚ) else 0)).sum /
    (embs2.length : ℚ)

/-- The second component returned by `get_ROC_data`:
`np.sum(imgs, axis=0) / len(embs2)` is a proper 100-entry curve when at
least one query was processed, but a single 0-d `nan` scalar when `imgs`
is empty (`np.sum([], axis=0)` is the scalar `0.0`, divided by zero). -/
inductive RocCurve where
  | nanScalar
  | curve (fractions : List ℚ)
  deriving DecidableEq

/-- `get_ROC_data` from `src/utils.py`: for each query vector of `embs2`
(paired with its own index), rank `embs1` by descending cosine similarity
and test top-`⌊t·|embs1|⌋` membership at each threshold; return the
thresholds and the per-threshold fraction of correct queries.  Two
degenerate paths of the source are modelled explicitly: when `embs1` holds
exactly one embedding and at least one query is processed,
`cosine_similarity`'s trailing `.squeeze()` collapses `cos_sim` to a 0-d
tensor and the first loop iteration raises `TypeError` at
`len(idx_sorted)`; and when `embs2` is empty the division produces a 0-d
`nan` scalar instead of a curve (`RocCurve.nanScalar`). -/
def get_ROC_data (embs1 embs2 : List (List ℚ)) :
    Except String (List ℚ × RocCurve) :=
  if 0 < embs2.length ∧ embs1.length = 1 then
    .error "TypeError: len() of a 0-d tensor"
  else if embs2.length = 0 then
    .ok (rocThresholds, .nanScalar)
  else
    .ok (rocThresholds,
      .curve ((List.range rocThresholds.length).map (rocFraction embs1 embs2)))

/-- `np.trapz(y, x)`: the trapezoid rule `Σ (x_{i+1} - x_i) · (y_i + y_{i+1}) / 2`. -/
def trapz (y x : List ℚ) : ℚ :=
  (List.zipWith (fun p q => (q.1 - p.1) * (p.2 + q.2) / 2) (x.zip y) (x.zip y).tail).sum

/-- `get_AUC` from `src/utils.py`: trapezoid integral of the ROC-like curve
over the threshold axis; a crash in `get_ROC_data` propagates, and
`np.trapz` applied to the degenerate 0-d result also raises. -/
def get_AUC (embs1 embs2 : List (List ℚ)) : Except String ℚ :=
  match get_ROC_data embs1 embs2 with
  | .error e => .error e
  | .ok (_, .nanScalar) => .error "IndexError: np.trapz on a 0-d value"
  | .ok (thresholds, .curve fraction_correct) => .ok (trapz fraction_correct thresholds)

/-- `rocHit` is monotone in the threshold: a correct retrieval at a lower
threshold stays correct at any higher one (the top-k prefix only grows). -/
theorem rocHit_mono (embs1 : List (List ℚ)) (idx : ℕ) (e : List ℚ) {t1 t2 : ℚ}
    (h : t1 ≤ t2) (hh : rocHit embs1 idx e t1 = true) :
    rocHit embs1 idx e t2 = true := by
  simp only [rocHit, decide_eq_true_eq] at hh ⊢
  set L := argsortDesc (cosSimPairs embs1 e) with hL
  have hcut : (⌊t1 * (L.length : ℚ)⌋).toNat ≤ (⌊t2 * (L.length : ℚ)⌋).toNat := by
    apply Int.toNat_le_toNat
    apply Int.floor_le_floor
    exact mul_le_mul_of_nonneg_right h (by positivity)
  have heq : L.take ((⌊t1 * (L.length : ℚ)⌋).toNat) =
      (L.take ((⌊t2 * (L.length : ℚ)⌋).toNat)).take ((⌊t1 * (L.length : ℚ)⌋).toNat) := by
    rw [List.take_take, min_eq_left hcut]
  rw [heq] at hh
  exact List.take_subset _ _ hh

/-- `get?` of a mapped range, inside the range. -/
theorem get?_range_map {β : Type} (f : ℕ → β) {n m : ℕ} (h : m < n) :
    ((List.range n).map f).get? m = some (f m) := by
  rw [List.get?_map, List.get?_range h]
  rfl

/-- `get?` of a mapped range determines the index bound and the value. -/
theorem get?_range_map_inv {β : Type} (f : ℕ → β) {n m : ℕ} {b : β}
    (h : ((List.range n).map f).get? m = some b) : m < n ∧ b = f m := by
  by_cases hm : m < n
  · rw [get?_range_map f hm] at h
    exact ⟨hm, (Option.some_inj.1 h).symm⟩
  · rw [List.get?_eq_none.2 (by simpa using Nat.le_of_not_lt hm)] at h
    exact absurd h (by simp)

/-- `getD` of a list at an index holding a known value. -/
theorem getD_eq_of_get? {α : Type} {l : List α} {m : ℕ} {a : α} (d : α)
    (h : l.get? m = some a) : l.getD m d = a := by
  rw [List.getD_eq_get?, h]
  rfl

/-- A row of `rocImgs` read below index 100 gives the hit at threshold `m/99`. -/
theorem roc_row_getD (embs1 : List (List ℚ)) (i : ℕ) (e : List ℚ) {m : ℕ}
    (hm : m < 100) :
    ((rocThresholds.map (fun t => rocHit embs1 i e t)).getD m false) =
      rocHit embs1 i e ((m : ℚ) / 99) := by
  apply getD_eq_of_get?
  have h1 : rocThresholds.get? m = some ((m : ℚ) / 99) := by
    show ((List.range 100).map (fun (k : ℕ) => (k : ℚ) / 99)).get? m = _
    exact get?_range_map _ hm
  rw [List.get?_map, h1]
  rfl

/-- Sum of an indicator map where the predicate holds everywhere. -/
theorem sum_map_ite_eq_length {α : Type} (p : α → Bool) :
    ∀ (l : List α), (∀ x ∈ l, p x = true) →
      (l.map (fun x => if p x then (1 : ℚ) else 0)).sum = l.length
  | [], _ => by simp
  | x :: xs, h => by
    rw [List.map_cons, List.sum_cons,
      sum_map_ite_eq_length p xs (fun y hy => h y (List.mem_cons_of_mem x hy)),
      if_pos (h x (List.mem_cons_self x xs))]
    rw [List.length_cons]
    push_cast
    ring

/-- The per-threshold fraction of `get_ROC_data` is monotone in the
threshold index. -/
theorem rocFraction_mono (embs1 embs2 : List (List ℚ)) {j k : ℕ} (hjk : j ≤ k)
    (hj : j < 100) (hk : k < 100) :
    rocFraction embs1 embs2 j ≤ rocFraction embs1 embs2 k := by
  unfold rocFraction
  rw [div_eq_mul_inv, div_eq_mul_inv]
  apply mul_le_mul_of_nonneg_right _ (inv_nonneg.2 (Nat.cast_nonneg _))
  apply List.sum_le_sum
  intro row hrow
  obtain ⟨p, hp, rfl⟩ := List.mem_map.1 hrow
  rw [roc_row_getD _ _ _ hj, roc_row_getD _ _ _ hk]
  have ht : ((j : ℚ)) / 99 ≤ ((k : ℚ)) / 99 := by
    gcongr
  by_cases hhit : rocHit embs1 p.1 p.2 ((j : ℚ) / 99) = true
  · rw [if_pos hhit, if_pos (rocHit_mono _ _ _ ht hhit)]
  · rw [if_neg hhit]
    split <;> norm_num

/-- At the last threshold (1.0), every query whose index is a valid index of
`embs1` is a hit, so when `|embs2| ≤ |embs1|` the fraction is exactly 1. -/
theorem rocFraction_last (embs1 embs2 : List (List ℚ)) (h2 : 0 < embs2.length)
    (hle : embs2.length ≤ embs1.length) :
    rocFraction embs1 embs2 99 = 1 := by
  unfold rocFraction
  have hall : ∀ row ∈ rocImgs embs1 embs2, row.getD 99 false = true := by
    intro row hrow
    obtain ⟨p, hp, rfl⟩ := List.mem_map.1 hrow
    rw [roc_row_getD _ _ _ (by norm_num)]
    simp only [rocHit, decide_eq_true_eq]
    rw [(by norm_num : (((99 : ℕ) : ℚ)) / 99 = 1), one_mul, Int.floor_natCast,
      Int.toNat_natCast, List.take_length, mem_argsortDesc, cosSimPairs,
      List.length_map]
    have hlt : p.1 < embs2.length := by
      rcases p with ⟨i, x⟩
      have := List.mk_mem_enum_iff_getElem?.1 hp
      exact (List.getElem?_eq_some.1 this).1
    exact lt_of_lt_of_le hlt hle
  rw [sum_map_ite_eq_length _ _ hall]
  have hlen : (rocImgs embs1 embs2).length = embs2.length := by
    rw [rocImgs, List.length_map, List.enum_length]
  rw [hlen]
  apply div_self
  exact Nat.cast_ne_zero.2 (by omega)

/-- Claim C3 counterexample: with 2 gallery vectors and 3 query vectors
(both sets non-empty), the run returns a proper curve but the third query's
index can never appear in the ranking of the gallery, so the fraction
correct at threshold 1.0 is 2/3, not 1. -/
theorem claim_C3_counterexample :
    get_ROC_data [[1, 0], [0, 1]] [[1, 0], [0, 1], [1, 0]] =
        Except.ok (rocThresholds,
          RocCurve.curve ((List.range rocThresholds.length).map
            (rocFraction [[1, 0], [0, 1]] [[1, 0], [0, 1], [1, 0]]))) ∧
      ((List.range rocThresholds.length).map
          (rocFraction [[1, 0], [0, 1]] [[1, 0], [0, 1], [1, 0]])).getLast? =
        some (2 / 3) ∧
      ((2 : ℚ) / 3) ≠ 1 := by
  refine ⟨by decide, by decide, by decide⟩

/-- Claim C3 (amended): whenever `get_ROC_data` returns a curve, the
fraction-correct values are monotone non-decreasing along the 100
thresholds; and whenever the query set is non-empty and no larger than the
gallery set, with the gallery not a singleton (a singleton gallery makes the
source raise `TypeError` through `cosine_similarity`'s squeeze), the run
returns a curve whose fraction at threshold 1.0 equals exactly 1. -/
theorem claim_C3 (embs1 embs2 : List (List ℚ)) :
    (∀ th fr, get_ROC_data embs1 embs2 = Except.ok (th, RocCurve.curve fr) →
      ∀ j k a b, j ≤ k → fr.get? j = some a → fr.get? k = some b → a ≤ b) ∧
    (0 < embs2.length → embs2.length ≤ embs1.length → embs1.length ≠ 1 →
      ∃ th fr, get_ROC_data embs1 embs2 = Except.ok (th, RocCurve.curve fr) ∧
        fr.getLast? = some 1) := by
  have hlen : rocThresholds.length = 100 := by decide
  constructor
  · intro th fr heq j k a b hjk hja hjb
    unfold get_ROC_data at heq
    split at heq
    · exact absurd heq (by simp)
    · split at heq
      · simp at heq
      · simp only [Except.ok.injEq, Prod.mk.injEq, RocCurve.curve.injEq] at heq
        obtain ⟨hth, hfr⟩ := heq
        subst hfr
        obtain ⟨hj, rfl⟩ := get?_range_map_inv _ hja
        obtain ⟨hk, rfl⟩ := get?_range_map_inv _ hjb
        exact rocFraction_mono embs1 embs2 hjk (hlen ▸ hj) (hlen ▸ hk)
  · intro h2 hle hn1
    refine ⟨rocThresholds,
      (List.range rocThresholds.length).map (rocFraction embs1 embs2), ?_, ?_⟩
    · unfold get_ROC_data
      rw [if_neg (fun hc => hn1 hc.2), if_neg (by omega)]
    · rw [hlen, (by decide : (100 : ℕ) = 99 + 1), List.range_succ,
        List.map_append, List.map_cons, List.map_nil, List.getLast?_concat]
      rw [rocFraction_last embs1 embs2 h2 hle]

/-- Witness for C3 at a two-vector gallery and a single query (avoiding the
singleton-gallery crash slice): the run returns a curve whose endpoint is 1,
and the first two fractions are ordered. -/
theorem claim_C3_witness :
    (∃ th fr,
      get_ROC_data [[(1 : ℚ)], [0]] [[(1 : ℚ)]] =
          Except.ok (th, RocCurve.curve fr) ∧
        fr.getLast? = some 1) ∧
      (0 : ℚ) ≤ 0 :=
  ⟨(claim_C3 [[(1 : ℚ)], [0]] [[(1 : ℚ)]]).2 (by decide) (by decide) (by decide),
   (claim_C3 [[(1 : ℚ)], [0]] [[(1 : ℚ)]]).1 rocThresholds
     ((List.range rocThresholds.length).map (rocFraction [[(1 : ℚ)], [0]] [[(1 : ℚ)]]))
     (by decide) 0 1 0 0 (by decide) (by decide) (by decide)⟩

/-- Claim C4: the trapezoid rule used by `get_AUC`, applied to the diagonal
curve whose value at each of the 100 thresholds equals the threshold itself,
integrates to exactly 1/2. -/
theorem claim_C4 : trapz rocThresholds rocThresholds = 1 / 2 := by decide

/-- The grouping key of `mergekfold_results`: `(Model, Combination, id)`. -/
def recKey (r : PredRecord) : String × String × ℤ := (r.Model, r.Combination, r.id)

/-- Lexicographic strict order on grouping keys (pandas sorts group keys). -/
def keyLtB (a b : String × String × ℤ) : Bool :=
  match compare a.1 b.1 with
  | .lt => true
  | .gt => false
  | .eq =>
    match compare a.2.1 b.2.1 with
    | .lt => true
    | .gt => false
    | .eq => decide (a.2.2 < b.2.2)

/-- Insert a key into a sorted key list. -/
def insertKey (k : String × String × ℤ) :
    List (String × String × ℤ) → List (String × String × ℤ)
  | [] => [k]
  | j :: js => if keyLtB k j then k :: j :: js else j :: insertKey k js

/-- Sort the distinct keys (models `groupby`'s sorted group iteration). -/
def sortKeys (l : List (String × String × ℤ)) : List (String × String × ℤ) :=
  l.foldr insertKey []

/-- One output row of `mergekfold_results`: field-wise `np.concatenate` over
the group's records in input order (the `.dropna()` calls are the identity
here because every record carries actual arrays); `lc_data` is concatenated
only when at least one record of the group has it (`notna().any()`),
otherwise `None`. -/
def mergedRow (rs : List PredRecord) (k : String × String × ℤ) : PredRecord :=
  let group := rs.filter (fun r => recKey r == k)
  { Model := k.1, Combination := k.2.1, id := k.2.2,
    y_pred := (group.map (fun r => r.y_pred)).flatten,
    y_true := (group.map (fun r => r.y_true)).flatten,
    y_true_label := (group.map (fun r => r.y_true_label)).flatten,
    lc_data :=
      if (group.filterMap (fun r => r.lc_data)).isEmpty then none
      else
        some { x_lc := ((group.filterMap (fun r => r.lc_data)).map (fun d => d.x_lc)).flatten,
               t_lc := ((group.filterMap (fun r => r.lc_data)).map (fun d => d.t_lc)).flatten,
               mask_lc := ((group.filterMap (fun r => r.lc_data)).map (fun d => d.mask_lc)).flatten } }

/-- `mergekfold_results` from `src/utils.py`: group the records by
`(Model, Combination, id)` (keys iterated in sorted order, rows kept in
input order within a group) and concatenate each group field-wise. -/
def mergekfold_results (results : List PredRecord) : List PredRecord :=
  (sortKeys ((results.map recKey).eraseDups)).map (mergedRow results)

/-- Claim C5: in every row of `mergekfold_results`, each concatenated array
equals the in-order concatenation of the per-record arrays of that row's
group, so its length is the sum of the per-record lengths. -/
theorem claim_C5 (rs : List PredRecord) (m : PredRecord)
    (hm : m ∈ mergekfold_results rs) :
    m.y_pred = ((rs.filter (fun r => recKey r == (m.Model, m.Combination, m.id))).map
        (fun r => r.y_pred)).flatten ∧
    m.y_pred.length = ((rs.filter (fun r => recKey r == (m.Model, m.Combination, m.id))).map
        (fun r => r.y_pred.length)).sum ∧
    m.y_true = ((rs.filter (fun r => recKey r == (m.Model, m.Combination, m.id))).map
        (fun r => r.y_true)).flatten ∧
    m.y_true.length = ((rs.filter (fun r => recKey r == (m.Model, m.Combination, m.id))).map
        (fun r => r.y_true.length)).sum ∧
    m.y_true_label = ((rs.filter (fun r => recKey r == (m.Model, m.Combination, m.id))).map
        (fun r => r.y_true_label)).flatten ∧
    m.y_true_label.length = ((rs.filter (fun r => recKey r == (m.Model, m.Combination, m.id))).map
        (fun r => r.y_true_label.length)).sum := by
  obtain ⟨k, hk, rfl⟩ := List.mem_map.1 hm
  refine ⟨rfl, ?_, rfl, ?_, rfl, ?_⟩ <;>
    · show ((_ : List PredRecord).map _).flatten.length = _
      rw [List.length_flatten, List.map_map]
      rfl

/-- Witness for C5: two records in one group concatenate in input order. -/
theorem claim_C5_witness :
    let rs : List PredRecord :=
      [⟨"m", "c", 0, [1], [2], [3], none⟩, ⟨"m", "c", 0, [4, 5], [6, 7], [8, 9], none⟩]
    let m0 : PredRecord := ⟨"m", "c", 0, [1, 4, 5], [2, 6, 7], [3, 8, 9], none⟩
    m0.y_pred = ((rs.filter (fun r => recKey r == (m0.Model, m0.Combination, m0.id))).map
        (fun r => r.y_pred)).flatten ∧
    m0.y_pred.length = ((rs.filter (fun r => recKey r == (m0.Model, m0.Combination, m0.id))).map
        (fun r => r.y_pred.length)).sum ∧
    m0.y_true = ((rs.filter (fun r => recKey r == (m0.Model, m0.Combination, m0.id))).map
        (fun r => r.y_true)).flatten ∧
    m0.y_true.length = ((rs.filter (fun r => recKey r == (m0.Model, m0.Combination, m0.id))).map
        (fun r => r.y_true.length)).sum ∧
    m0.y_true_label = ((rs.filter (fun r => recKey r == (m0.Model, m0.Combination, m0.id))).map
        (fun r => r.y_true_label)).flatten ∧
    m0.y_true_label.length = ((rs.filter (fun r => recKey r == (m0.Model, m0.Combination, m0.id))).map
        (fun r => r.y_true_label.length)).sum :=
  claim_C5 _ _ (by decide)

/-- Boolean-mask row selection, modelling tensor indexing `X[mask]`. -/
def maskFilter {α : Type} (mask : List Bool) (xs : List α) : List α :=
  ((xs.zip mask).filter (fun p => p.2)).map (fun p => p.1)

/-- The label-remapping loop of `filter_classes`: for each position `i` in
`target_classes`, positions of `filtered_y` equal to that class get label
`i`.  The result starts from `torch.empty_like(filtered_y)` (uninitialised
memory); its unspecified contents are modelled by starting from
`filtered_y` itself — irrelevant whenever every retained label matches some
target class, as is always the case after the mask filter. -/
def remapLabels (filtered_y : List ℤ) (target_classes : List ℤ) : List ℤ :=
  target_classes.enum.foldl
    (fun acc p => List.zipWith (fun a v => if v = p.2 then (p.1 : ℤ) else a) acc filtered_y)
    filtered_y

/-- `filter_classes` from `src/utils.py`: keep the rows whose label is one of
`target_classes` (the mask `(y == target_classes[:, None]).any(dim=0)`),
filter every feature matrix and the `lc_data` payload with the same mask,
and remap the kept labels to the index of their class in `target_classes`. -/
def filter_classes (X_list : List (List (List ℚ))) (y : List ℤ)
    (lc_data : Option LCData) (target_classes : List ℤ) :
    List (List (List ℚ)) × List ℤ × Option LCData :=
  let mask := y.map (fun v => target_classes.contains v)
  let filtered_X_list := X_list.map (fun X => maskFilter mask X)
  let filtered_lc_data := lc_data.map (fun d =>
    { x_lc := maskFilter mask d.x_lc, t_lc := maskFilter mask d.t_lc,
      mask_lc := maskFilter mask d.mask_lc })
  let filtered_y := maskFilter mask y
  let remapped_y := remapLabels filtered_y target_classes
  (filtered_X_list, remapped_y, filtered_lc_data)

/-- Filtering with an everywhere-true mask of matching length is the identity. -/
theorem maskFilter_map_true {α : Type} (p : ℤ → Bool) :
    ∀ (y : List ℤ) (xs : List α), xs.length = y.length → (∀ v ∈ y, p v = true) →
      maskFilter (y.map p) xs = xs
  | [], [], _, _ => rfl
  | [], _ :: _, h, _ => by simp at h
  | _ :: _, [], h, _ => by simp at h
  | v :: ys, x :: xs, h, hall => by
    have hpv : p v = true := hall v (List.mem_cons_self _ _)
    have ih := maskFilter_map_true p ys xs (by simpa using h)
      (fun w hw => hall w (List.mem_cons_of_mem _ hw))
    simp only [maskFilter, List.map_cons, List.zip_cons_cons, List.filter_cons, hpv,
      eq_self_iff_true, if_true] at ih ⊢
    rw [ih]

/-- Replacing the entries equal to `c` by `c` itself changes nothing. -/
theorem zipWith_ite_self (c : ℤ) :
    ∀ (l : List ℤ), List.zipWith (fun a v => if v = c then c else a) l l = l
  | [] => rfl
  | x :: xs => by
    rw [List.zipWith_cons_cons, zipWith_ite_self c xs]
    by_cases hx : x = c
    · rw [if_pos hx, hx]
    · rw [if_neg hx]

/-- Remapping with the identity class list `[0, 1, 2]` is the identity (each
matching position receives the index of its own class, which equals the
class id itself). -/
theorem remapLabels_id (y : List ℤ) : remapLabels y [0, 1, 2] = y := by
  have h0 : List.zipWith (fun a v => if v = (0 : ℤ) then ((0 : ℕ) : ℤ) else a) y y = y :=
    zipWith_ite_self 0 y
  have h1 : List.zipWith (fun a v => if v = (1 : ℤ) then ((1 : ℕ) : ℤ) else a) y y = y :=
    zipWith_ite_self 1 y
  have h2 : List.zipWith (fun a v => if v = (2 : ℤ) then ((2 : ℕ) : ℤ) else a) y y = y :=
    zipWith_ite_self 2 y
  show List.zipWith (fun a v => if v = (2 : ℤ) then ((2 : ℕ) : ℤ) else a)
      (List.zipWith (fun a v => if v = (1 : ℤ) then ((1 : ℕ) : ℤ) else a)
        (List.zipWith (fun a v => if v = (0 : ℤ) then ((0 : ℕ) : ℤ) else a) y y) y) y = y
  rw [h0, h1, h2]

/-- Claim C7: on a dataset whose labels all lie in {0, 1, 2} (with feature
matrices and auxiliary arrays aligned to the labels), `filter_classes` with
`target_classes = [0, 1, 2]` is a no-op: every feature matrix, the auxiliary
data and the label vector come back unchanged, and the remapped labels equal
the original labels. -/
theorem claim_C7 (X_list : List (List (List ℚ))) (y : List ℤ)
    (lc_data : Option LCData)
    (hX : ∀ X ∈ X_list, X.length = y.length)
    (hlc : ∀ d, lc_data = some d → d.x_lc.length = y.length ∧
      d.t_lc.length = y.length ∧ d.mask_lc.length = y.length)
    (hy : ∀ v ∈ y, v = 0 ∨ v = 1 ∨ v = 2) :
    filter_classes X_list y lc_data [0, 1, 2] = (X_list, y, lc_data) := by
  have hmask : ∀ v ∈ y, (([0, 1, 2] : List ℤ).contains v) = true := by
    intro v hv
    rcases hy v hv with h | h | h <;> simp [h]
  unfold filter_classes
  simp only [Prod.mk.injEq]
  refine ⟨?_, ?_, ?_⟩
  · calc X_list.map (fun X => maskFilter (y.map (fun v => ([0, 1, 2] : List ℤ).contains v)) X)
        = X_list.map (fun X => X) := by
          apply List.map_congr_left
          intro X hX'
          exact maskFilter_map_true _ y X (hX X hX') hmask
      _ = X_list := List.map_id' X_list
  · rw [maskFilter_map_true _ y y rfl hmask, remapLabels_id]
  · cases lc_data with
    | none => rfl
    | some d =>
      obtain ⟨h1, h2, h3⟩ := hlc d rfl
      simp only [Option.map_some']
      rw [maskFilter_map_true _ y d.x_lc h1 hmask,
        maskFilter_map_true _ y d.t_lc h2 hmask,
        maskFilter_map_true _ y d.mask_lc h3 hmask]

/-- Witness for C7: a three-row dataset with labels 0, 1, 2. -/
theorem claim_C7_witness :
    filter_classes [[[1], [2], [3]]] [0, 1, 2]
        (some ⟨[4, 5, 6], [7, 8, 9], [1, 1, 0]⟩) [0, 1, 2] =
      ([[[1], [2], [3]]], [0, 1, 2], some ⟨[4, 5, 6], [7, 8, 9], [1, 1, 0]⟩) :=
  claim_C7 [[[1], [2], [3]]] [0, 1, 2] (some ⟨[4, 5, 6], [7, 8, 9], [1, 1, 0]⟩)
    (by decide) (by decide) (by decide)

/-- Length of a mask selection: the number of positions satisfying the
predicate, provided the data is aligned with the labels. -/
theorem maskFilter_length {α : Type} (p : ℤ → Bool) :
    ∀ (labels : List ℤ) (xs : List α), xs.length = labels.length →
      (maskFilter (labels.map p) xs).length = labels.countP p
  | [], [], _ => rfl
  | [], _ :: _, h => by simp at h
  | _ :: _, [], h => by simp at h
  | v :: ls, x :: xs, h => by
    have ih := maskFilter_length p ls xs (by simpa using h)
    simp only [maskFilter, List.map_cons, List.zip_cons_cons, List.filter_cons,
      List.countP_cons] at ih ⊢
    cases hpv : p v
    · simpa [hpv] using ih
    · simpa [hpv] using ih

/-- A mask selection is non-empty exactly when some label satisfies the
predicate. -/
theorem maskFilter_pos_iff {α : Type} (p : ℤ → Bool) (labels : List ℤ) (xs : List α)
    (h : xs.length = labels.length) :
    0 < (maskFilter (labels.map p) xs).length ↔ ∃ v ∈ labels, p v = true := by
  rw [maskFilter_length p labels xs h]
  exact List.countP_pos_iff

/-- A class-conditional Metrics Record: the regression metrics of one class
partition, tagged with the class display name (`metrics["class"]`). -/
structure ClassMetricsRecord where
  base : MetricRecord
  className : String
  deriving DecidableEq

/-- The record emitted by `get_class_dependent_predictions` for one row and
one class: `calculate_metrics(task="regression")` on the class partition,
tagged with the class name. -/
def classEmit (row : PredRecord) (c : ℤ × String × String) : ClassMetricsRecord :=
  { base := regressionMetricRecord
      (maskFilter (row.y_true_label.map (fun v => v == c.1)) row.y_true)
      (maskFilter (row.y_true_label.map (fun v => v == c.1)) row.y_pred)
      row.Model row.Combination row.id,
    className := c.2.1 }

/-- `get_class_dependent_predictions` from `src/utils.py`: for each input
row and each `(class id, (name, colour))` entry of the class-name map, mask
the predictions and true values by the class, and emit a regression metrics
record only when the partition is non-empty. -/
def get_class_dependent_predictions (inputs : List PredRecord)
    (class_names : List (ℤ × String × String)) : List ClassMetricsRecord :=
  inputs.flatMap (fun row =>
    class_names.filterMap (fun c =>
      let mask := row.y_true_label.map (fun v => v == c.1)
      let y_pred_class := maskFilter mask row.y_pred
      let y_true_class := maskFilter mask row.y_true
      if 0 < y_pred_class.length ∧ 0 < y_true_class.length then
        some (classEmit row c)
      else none))

/-- Per-row form of C9: the conditional emission over the class map equals a
filter (classes with at least one member) followed by a map. -/
theorem filterMap_classes (row : PredRecord)
    (hp : row.y_pred.length = row.y_true_label.length)
    (ht : row.y_true.length = row.y_true_label.length) :
    ∀ (cns : List (ℤ × String × String)),
      (cns.filterMap (fun c =>
        if 0 < (maskFilter (row.y_true_label.map (fun v => v == c.1)) row.y_pred).length ∧
            0 < (maskFilter (row.y_true_label.map (fun v => v == c.1)) row.y_true).length then
          some (classEmit row c)
        else none)) =
      (cns.filter (fun c => decide (c.1 ∈ row.y_true_label))).map (classEmit row)
  | [] => rfl
  | c :: cs => by
    have hcond :
        (0 < (maskFilter (row.y_true_label.map (fun v => v == c.1)) row.y_pred).length ∧
          0 < (maskFilter (row.y_true_label.map (fun v => v == c.1)) row.y_true).length) ↔
        c.1 ∈ row.y_true_label := by
      rw [maskFilter_pos_iff _ _ _ hp, maskFilter_pos_iff _ _ _ ht]
      simp [beq_iff_eq]
    rw [List.filterMap_cons, List.filter_cons]
    by_cases hmem : c.1 ∈ row.y_true_label
    · rw [if_pos (hcond.2 hmem), if_pos (decide_eq_true hmem), List.map_cons,
        filterMap_classes row hp ht cs]
    · rw [if_neg (fun hc => hmem (hcond.1 hc)), if_neg (by simpa using hmem)]
      exact filterMap_classes row hp ht cs

/-- Claim C9: `get_class_dependent_predictions` emits metrics exactly for
the classes with at least one member in a row's true labels; empty class
partitions are silently skipped (no record, no error — the function is
total). -/
theorem claim_C9 (inputs : List PredRecord) (class_names : List (ℤ × String × String))
    (hlen : ∀ r ∈ inputs, r.y_pred.length = r.y_true_label.length ∧
      r.y_true.length = r.y_true_label.length) :
    get_class_dependent_predictions inputs class_names =
      inputs.flatMap (fun row =>
        (class_names.filter (fun c => decide (c.1 ∈ row.y_true_label))).map
          (classEmit row)) := by
  unfold get_class_dependent_predictions
  induction inputs with
  | nil => rfl
  | cons r rs ih =>
    rw [List.flatMap_cons, List.flatMap_cons, ih (fun x hx => hlen x (List.mem_cons_of_mem _ hx))]
    congr 1
    obtain ⟨hp, ht⟩ := hlen r (List.mem_cons_self _ _)
    exact filterMap_classes r hp ht class_names

/-- Witness for C9: one row with labels {0, 1} and a class map containing
class 0 (one member) and class 5 (no members): only class 0 is emitted. -/
theorem claim_C9_witness :
    get_class_dependent_predictions [⟨"m", "c", 0, [1, 2], [3, 4], [0, 1], none⟩]
        [(0, "A", "red"), (5, "B", "blue")] =
      [⟨"m", "c", 0, [1, 2], [3, 4], [0, 1], none⟩].flatMap (fun row =>
        ([(0, "A", "red"), (5, "B", "blue")].filter
            (fun c => decide (c.1 ∈ row.y_true_label))).map (classEmit row)) :=
  claim_C9 [⟨"m", "c", 0, [1, 2], [3, 4], [0, 1], none⟩]
    [(0, "A", "red"), (5, "B", "blue")] (by decide)
